import Mathlib

/-!
Verification of the SOLID scheduler-facade core: the command-output parser
(`internal/pkg/client/slurmctl/slurmctl.go`) and the association-graph
resolver (`internal/pkg/client/slurmdb/slurmdb.go`), shallowly embedded in
Lean.  Raw command output is modelled as the list of lines produced by the
line scanner; database tables are modelled as lists of rows, and each
resolver operation also reports the list of data-layer queries it issued.
-/

set_option maxRecDepth 4096

namespace Solid

/-! ### String helpers mirroring the Go standard library

They are written by structural recursion on the character list so that the
kernel can evaluate them on concrete inputs. -/

def stringFieldsAux (cur : List Char) : List Char → List String
  | [] => if cur.isEmpty then [] else [String.mk cur.reverse]
  | c :: rest =>
    if c.isWhitespace then
      if cur.isEmpty then stringFieldsAux [] rest
      else String.mk cur.reverse :: stringFieldsAux [] rest
    else stringFieldsAux (c :: cur) rest

/-- Go `strings.Fields`: split around runs of whitespace, dropping empty
substrings. -/
def stringFields (s : String) : List String :=
  stringFieldsAux [] s.data

/-- Go `strings.TrimSpace`: drop leading and trailing whitespace. -/
def trimSpace (s : String) : String :=
  String.mk (((s.data.dropWhile Char.isWhitespace).reverse.dropWhile Char.isWhitespace).reverse)

def splitCharAux (sep : Char) (cur : List Char) : List Char → List String
  | [] => [String.mk cur.reverse]
  | c :: rest =>
    if c = sep then String.mk cur.reverse :: splitCharAux sep [] rest
    else splitCharAux sep (c :: cur) rest

/-- Go `strings.Split` with a one-character separator. -/
def splitChar (sep : Char) (s : String) : List String :=
  splitCharAux sep [] s.data

/-- Decimal value of a digit run, as Go `strconv` accumulates it. -/
def digitsToNat (ds : List Char) : Nat :=
  ds.foldl (fun acc c => acc * 10 + (c.toNat - ('0').toNat)) 0

/-- Successful-syntax part of Go `strconv.ParseInt(s, 10, 0)`: an optional
sign followed by one or more ASCII digits; anything else is a syntax
error (`none`). -/
def parseIntOpt (s : String) : Option Int :=
  let signAndDigits : Int × List Char :=
    match s.data with
    | '+' :: rest => (1, rest)
    | '-' :: rest => (-1, rest)
    | rest => (1, rest)
  if signAndDigits.2.isEmpty then none
  else if signAndDigits.2.all (fun c => c.isDigit) then
    some (signAndDigits.1 * (digitsToNat signAndDigits.2 : Int))
  else none

def int64Max : Int := 9223372036854775807

def int64Min : Int := -9223372036854775808

/-- Go `strconv.Atoi` as used with its error ignored: syntax errors yield
the zero value `0`; out-of-range values are clamped to the `int64` bounds
(that is the value `ParseInt` reports alongside `ErrRange`). -/
def atoi (s : String) : Int :=
  match parseIntOpt s with
  | none => 0
  | some v => if v < int64Min then int64Min else if v > int64Max then int64Max else v

/-! ### slurmctl: node listing (`GetNodes`) -/

/-- `models.Node` as built by `GetNodes`. -/
structure Node where
  name : String
  partition : List String
  state : String
  memory : Int
  cpus : Int
  socket : Int
  cores : Int
  threads : Int
  gpu : String
  deriving Repr, DecidableEq

/-- `models.Nodes` (`map[string]*Node`), kept in insertion order. -/
abbrev NodeMap := List (String × Node)

def lookupNode : NodeMap → String → Option Node
  | [], _ => none
  | (k, n) :: rest, name => if k == name then some n else lookupNode rest name

/-- `node.Partition = append(node.Partition, part)` through the map's
pointer: update the stored node in place. -/
def appendPartition : NodeMap → String → String → NodeMap
  | [], _, _ => []
  | (k, n) :: rest, name, part =>
    if k == name then (k, { n with partition := n.partition ++ [part] }) :: rest
    else (k, n) :: appendPartition rest name part

/-- One iteration of the `GetNodes` scanner loop, on the already-split
fields of a line.  `none` models a Go index-out-of-range panic: the guard
only rejects lines with fewer than 7 fields, yet `fields[7]` is always
read and `fields[8]` is read when the node is first seen. -/
def getNodesStepF (nodes : NodeMap) (fs : List String) : Option NodeMap :=
  if fs.length < 7 then some nodes
  else
    match fs.get? 7 with
    | none => none
    | some f7 =>
      let name := fs.getD 0 ""
      let part := fs.getD 1 ""
      match lookupNode nodes name with
      | some _ => some (appendPartition nodes name part)
      | none =>
        match fs.get? 8 with
        | none => none
        | some f8 =>
          some (nodes ++ [(name,
            { name := name
              partition := [part]
              state := fs.getD 2 ""
              memory := atoi (fs.getD 3 "")
              cpus := atoi (fs.getD 4 "")
              socket := atoi (fs.getD 5 "")
              cores := atoi (fs.getD 6 "")
              threads := atoi f7
              gpu := f8 })])

def getNodesFAux (nodes : NodeMap) : List (List String) → Option NodeMap
  | [] => some nodes
  | fs :: rest =>
    match getNodesStepF nodes fs with
    | none => none
    | some nodes2 => getNodesFAux nodes2 rest

/-- `GetNodes` parsing loop over pre-split lines. -/
def getNodesF (ls : List (List String)) : Option NodeMap :=
  getNodesFAux [] ls

/-- `GetNodes` parsing phase on the scanner's lines (`strings.Fields` per
line).  `none` models a runtime panic aborting the whole call. -/
def GetNodes (lines : List String) : Option NodeMap :=
  getNodesF (lines.map stringFields)

/-! ### slurmctl: job listings (`GetJobs`, `GetJob`) -/

/-- `models.Job`. -/
structure Job where
  jobid : String
  state : String
  user : String
  account : String
  cpus : String
  nodelist : String
  partition : String
  qos : String
  reason : String
  deriving Repr, DecidableEq

/-- Positional mapping of one `|`-split squeue line; a line with a field
count other than 9 produces no record. -/
def parseJobFields (fs : List String) : Option Job :=
  if fs.length = 9 then
    some
      { jobid := fs.getD 0 ""
        state := fs.getD 1 ""
        user := fs.getD 2 ""
        account := fs.getD 3 ""
        cpus := fs.getD 4 ""
        nodelist := fs.getD 5 ""
        partition := fs.getD 6 ""
        qos := fs.getD 7 ""
        reason := fs.getD 8 "" }
  else none

/-- `GetJobs` parsing loop: malformed lines are skipped with a warning and
the loop continues; the parse phase itself never fails. -/
def GetJobs (lines : List String) : List Job :=
  lines.foldl
    (fun js l =>
      match parseJobFields (splitChar '|' l) with
      | some j => js ++ [j]
      | none => js)
    []

/-- `GetJob`: the whole trimmed output is split once on `|`; a field count
other than 9 is returned to the caller as an error. -/
def GetJob (out : String) : Except String Job :=
  match parseJobFields (splitChar '|' (trimSpace out)) with
  | some j => Except.ok j
  | none => Except.error ("invalid squeue output line, skip")

/-! ### slurmctl: partition block parsing -/

/-- `models.Partition` (`map[string]string`), kept as an association list
whose keys are unique (`upsert` overwrites in place). -/
abbrev PartitionMap := List (String × String)

def upsert : PartitionMap → String → String → PartitionMap
  | [], k, v => [(k, v)]
  | (k', v') :: rest, k, v =>
    if k' == k then (k, v) :: rest else (k', v') :: upsert rest k v

/-- Go map read `m[k]` with the string zero value for a missing key. -/
def lookupD : PartitionMap → String → String → String
  | [], _, d => d
  | (k', v) :: rest, k, d => if k' == k then v else lookupD rest k d

/-- Go map read `m[k]` with a present/absent distinction. -/
def lookupKV : PartitionMap → String → Option String
  | [], _ => none
  | (k', v) :: rest, k => if k' == k then some v else lookupKV rest k

def splitEqL : List Char → Option (List Char × List Char)
  | [] => none
  | c :: rest =>
    if c = '=' then some ([], rest)
    else
      match splitEqL rest with
      | none => none
      | some (k, v) => some (c :: k, v)

/-- Token split at the first `=` (`strings.IndexByte(tok, '=')`); tokens
without `=` are ignored by both partition parsers. -/
def splitEq (tok : String) : Option (String × String) :=
  match splitEqL tok.data with
  | none => none
  | some (k, v) => some (String.mk k, String.mk v)

/-- Token step of `parsePartitions`: a `PartitionName` key met while the
current block is non-empty and already holds a non-empty `PartitionName`
value flushes the current block and starts a new one before storing. -/
def applyTok (st : List PartitionMap × PartitionMap) (tok : String) :
    List PartitionMap × PartitionMap :=
  match splitEq tok with
  | none => st
  | some (k, v) =>
    if k = "PartitionName" ∧ 0 < st.2.length ∧ lookupD st.2 "PartitionName" "" ≠ "" then
      (st.1 ++ [st.2], upsert [] k v)
    else
      (st.1, upsert st.2 k v)

/-- Line step of `parsePartitions`, on the whitespace-split tokens of a
trimmed line; the empty token list is a blank line, which flushes a
non-empty current block. -/
def partitionsStep (st : List PartitionMap × PartitionMap) (toks : List String) :
    List PartitionMap × PartitionMap :=
  match toks with
  | [] => if 0 < st.2.length then (st.1 ++ [st.2], []) else st
  | _ => toks.foldl applyTok st

/-- `parsePartitions` on pre-tokenised lines, including the final flush of
a still-open non-empty block. -/
def parsePartitionsFieldLines (ls : List (List String)) : List PartitionMap :=
  let st := ls.foldl partitionsStep ([], [])
  if 0 < st.2.length then st.1 ++ [st.2] else st.1

/-- `parsePartitions` on the scanner's lines. -/
def parsePartitions (lines : List String) : List PartitionMap :=
  parsePartitionsFieldLines (lines.map (fun l => stringFields (trimSpace l)))

def upsertTok (cur : PartitionMap) (tok : String) : PartitionMap :=
  match splitEq tok with
  | none => cur
  | some (k, v) => upsert cur k v

/-- `parsePartition` (single-partition variant) on pre-tokenised lines:
one flat map, no blank-line handling, no `PartitionName` splitting. -/
def parsePartitionFieldLines (ls : List (List String)) : PartitionMap :=
  ls.foldl (fun cur toks => toks.foldl upsertTok cur) []

/-- `parsePartition` on the scanner's lines. -/
def parsePartition (lines : List String) : PartitionMap :=
  parsePartitionFieldLines (lines.map (fun l => stringFields (trimSpace l)))

/-! ### slurmdb: data model

The `<cluster>_assoc_table` edge relation, `user_table` and `acct_table`
are modelled as lists of rows in table order; SQL `DISTINCT` keeps the
first occurrence of each value.  Every resolver operation returns the list
of data-layer queries it issued alongside its result, so that "reported
immediately, not sent to the data layer" and query counts are statable. -/

/-- A `model.UserAssociation` edge row of `<cluster>_assoc_table`. -/
structure AssocRow where
  acct : String
  user : String
  partition : String
  parentAcct : String
  deleted : Int
  deriving Repr, DecidableEq

/-- A `model.User` row of `user_table`. -/
structure UserRow where
  name : String
  adminLevel : Int
  deleted : Int
  deriving Repr, DecidableEq

/-- A `model.Account` row of `acct_table`. -/
structure AccountRow where
  name : String
  description : String
  organization : String
  deleted : Int
  deriving Repr, DecidableEq

/-- The slurmdb `Client`: cluster name plus the backing tables. -/
structure Client where
  clusterName : String
  assocRows : List AssocRow
  userRows : List UserRow
  acctRows : List AccountRow
  deriving Repr

/-- One data-layer query, tagged by which statement was issued. -/
inductive Query where
  | acctByName
  | subAccounts
  | subUsers
  | parentAccounts
  | adminLevels
  | partitionOfAccount
  | partitionsOfUser
  | findAssociation
  deriving Repr, DecidableEq, BEq

/-- Resolver error outcomes (`fmt.Errorf` precondition messages,
`gorm.ErrRecordNotFound`, `ErrMultipleAssociations`). -/
inductive DbErr where
  | required (field : String)
  | clusterEmpty
  | recordNotFound
  | multipleAssociations
  deriving Repr, DecidableEq

def distinctAux (seen : List String) : List String → List String
  | [] => []
  | x :: xs =>
    if x ∈ seen then distinctAux seen xs
    else x :: distinctAux (x :: seen) xs

/-- SQL `DISTINCT` over a projected column, first occurrence kept, in row
order. -/
def distinct (l : List String) : List String :=
  distinctAux [] l

/-! ### slurmdb: resolver operations -/

/-- The non-deleted account-level rows (`user = ''`) of an account, in the
filter used by `GetPartitionOfAccount`. -/
def partitionValuesOfAccount (c : Client) (account : String) : List String :=
  distinct
    ((c.assocRows.filter
        (fun r => r.acct == account && r.deleted == 0 && r.user == "")).map
      (fun r => r.partition))

/-- `GetPartitionOfAccount`: no precondition checks at all; the query is
always issued.  The destination of `Pluck` is a single `string`, which
GORM's scan loop overwrites once per result row, so the returned value is
the last scanned distinct partition value (the zero value `""` when no
row matches). -/
def GetPartitionOfAccount (c : Client) (account : String) :
    List Query × Except DbErr String :=
  ([Query.partitionOfAccount],
    Except.ok ((partitionValuesOfAccount c account).foldl (fun _ v => v) ""))

/-- `GetPartitionsOfUser`: distinct non-empty partitions of the exact
(account, user) pair. -/
def GetPartitionsOfUser (c : Client) (account user : String) :
    List Query × Except DbErr (List String) :=
  if trimSpace account = "" then ([], Except.error (DbErr.required ("account")))
  else if trimSpace user = "" then ([], Except.error (DbErr.required ("username")))
  else if trimSpace c.clusterName = "" then ([], Except.error DbErr.clusterEmpty)
  else
    ([Query.partitionsOfUser],
      Except.ok
        (distinct
          ((c.assocRows.filter
              (fun r =>
                r.acct == account && r.user == user && r.deleted == 0 &&
                  r.partition != "")).map
            (fun r => r.partition))))

/-- `GetSubAccountsAndUsers`: direct sub-accounts (`parent_acct` rows with
empty user) and direct sub-users (non-empty user rows of the account). -/
def GetSubAccountsAndUsers (c : Client) (account : String) :
    List Query × Except DbErr (List String × List String) :=
  if trimSpace account = "" then ([], Except.error (DbErr.required ("account")))
  else if trimSpace c.clusterName = "" then ([], Except.error DbErr.clusterEmpty)
  else
    let subAccts :=
      distinct
        ((c.assocRows.filter
            (fun r => r.parentAcct == account && r.deleted == 0 && r.user == "")).map
          (fun r => r.acct))
    let subUsers :=
      distinct
        ((c.assocRows.filter
            (fun r => r.acct == account && r.deleted == 0 && r.user != "")).map
          (fun r => r.user))
    ([Query.subAccounts, Query.subUsers], Except.ok (subAccts, subUsers))

/-- `GetParentAccountsByUser`: distinct accounts of a user's non-deleted
edges. -/
def GetParentAccountsByUser (c : Client) (username : String) :
    List Query × Except DbErr (List String) :=
  if trimSpace username = "" then ([], Except.error (DbErr.required ("username")))
  else if trimSpace c.clusterName = "" then ([], Except.error DbErr.clusterEmpty)
  else
    ([Query.parentAccounts],
      Except.ok
        (distinct
          ((c.assocRows.filter (fun r => r.user == username && r.deleted == 0)).map
            (fun r => r.acct))))

def upsertInt : List (String × Int) → String → Int → List (String × Int)
  | [], k, v => [(k, v)]
  | (k', v') :: rest, k, v =>
    if k' == k then (k, v) :: rest else (k', v') :: upsertInt rest k v

/-- Go map read with the `int` zero value for a missing key. -/
def lookupIntD : List (String × Int) → String → Int → Int
  | [], _, d => d
  | (k', v) :: rest, k, d => if k' == k then v else lookupIntD rest k d

/-- `GetUserAdminLevels`: one `IN` query over the deduplicated non-empty
names (no query at all when that list is empty); the result map takes the
last row stored per name. -/
def GetUserAdminLevels (c : Client) (usernames : List String) :
    List Query × Except DbErr (List (String × Int)) :=
  if usernames.isEmpty then ([], Except.ok [])
  else
    let list := distinct (usernames.filter (fun u => u ≠ ""))
    if list.isEmpty then ([], Except.ok [])
    else
      let rows := c.userRows.filter (fun r => r.deleted == 0 && list.contains r.name)
      ([Query.adminLevels],
        Except.ok (rows.foldl (fun m r => upsertInt m r.name r.adminLevel) []))

/-- `GetAcctByName`: `First` over non-deleted accounts with the exact
name; no row is `gorm.ErrRecordNotFound`. -/
def GetAcctByName (c : Client) (name : String) :
    List Query × Except DbErr AccountRow :=
  if trimSpace name = "" then ([], Except.error (DbErr.required ("account")))
  else
    match (c.acctRows.filter (fun r => r.deleted == 0 && r.name == name)).head? with
    | none => ([Query.acctByName], Except.error DbErr.recordNotFound)
    | some r => ([Query.acctByName], Except.ok r)

/-- The rows matched by `FindAssociationOne`: required account filter and
optional user/partition filters, each applied only when the pointer is
non-nil and non-blank. -/
def findMatches (c : Client) (account : String) (userF partF : Option String) :
    List AssocRow :=
  c.assocRows.filter
    (fun r =>
      r.deleted == 0 && r.acct == account &&
        (match userF with
          | none => true
          | some u => if trimSpace u ≠ "" then r.user == u else true) &&
        (match partF with
          | none => true
          | some p => if trimSpace p ≠ "" then r.partition == p else true))

/-- `FindAssociationOne`: precondition checks, one `Find` query, then a
switch on the matched row count (0 → not found, 1 → that row,
otherwise → `ErrMultipleAssociations`). -/
def FindAssociationOne (c : Client) (account : String) (userF partF : Option String) :
    List Query × Except DbErr AssocRow :=
  if trimSpace account = "" then ([], Except.error (DbErr.required ("account")))
  else if trimSpace c.clusterName = "" then ([], Except.error DbErr.clusterEmpty)
  else
    match findMatches c account userF partF with
    | [] => ([Query.findAssociation], Except.error DbErr.recordNotFound)
    | [r] => ([Query.findAssociation], Except.ok r)
    | _ => ([Query.findAssociation], Except.error DbErr.multipleAssociations)

/-- A sub-user entry of `AccountNode`. -/
structure UserNode where
  name : String
  adminLevel : Int
  availableAccounts : List String
  deriving Repr, DecidableEq

/-- `AccountNode`, the account-tree value built by
`GetChildNodesOfAccount`. -/
structure AccountNode where
  name : String
  organization : String
  description : String
  subAccounts : List String
  subUsers : List UserNode
  deriving Repr, DecidableEq

/-- The per-sub-user loop of `GetChildNodesOfAccount`: for each sub-user
one `GetParentAccountsByUser` call and one `GetUserAdminLevels` call with
the singleton list `[name]`; the first error aborts the loop. -/
def subUsersLoop (c : Client) : List String → List Query × Except DbErr (List UserNode)
  | [] => ([], Except.ok [])
  | name :: rest =>
    let rp := GetParentAccountsByUser c name
    match rp.2 with
    | Except.error e => (rp.1, Except.error e)
    | Except.ok ps =>
      let ra := GetUserAdminLevels c [name]
      match ra.2 with
      | Except.error e => (rp.1 ++ ra.1, Except.error e)
      | Except.ok al =>
        let rr := subUsersLoop c rest
        (rp.1 ++ ra.1 ++ rr.1,
          rr.2.map
            (fun ns =>
              { name := name
                adminLevel := lookupIntD al name 0
                availableAccounts := ps } :: ns))

/-- `GetChildNodesOfAccount`: account metadata by name, direct
sub-accounts and sub-users, then the per-sub-user annotation loop. -/
def GetChildNodesOfAccount (c : Client) (account : String) :
    List Query × Except DbErr AccountNode :=
  if trimSpace account = "" then ([], Except.error (DbErr.required ("account")))
  else
    let r1 := GetAcctByName c account
    match r1.2 with
    | Except.error e => (r1.1, Except.error e)
    | Except.ok acct =>
      let r2 := GetSubAccountsAndUsers c account
      match r2.2 with
      | Except.error e => (r1.1 ++ r2.1, Except.error e)
      | Except.ok su =>
        let r3 := subUsersLoop c su.2
        match r3.2 with
        | Except.error e => (r1.1 ++ r2.1 ++ r3.1, Except.error e)
        | Except.ok subUserNodes =>
          (r1.1 ++ r2.1 ++ r3.1,
            Except.ok
              { name := account
                organization := acct.organization
                description := acct.description
                subAccounts := su.1
                subUsers := subUserNodes })

/-- The number of admin-level (`user_table`) queries in a query log. -/
def countAdmin : List Query → Nat
  | [] => 0
  | Query.adminLevels :: rest => countAdmin rest + 1
  | _ :: rest => countAdmin rest

/-- The value of the last `key=value` token for `key` in a token list —
the spec-level "each key holds the value of its last occurrence". -/
def lastAssign (key : String) : List String → Option String
  | [] => none
  | t :: ts =>
    match lastAssign key ts with
    | some v => some v
    | none =>
      match splitEq t with
      | none => none
      | some (k, v) => if k = key then some v else none

/-! ### Decidable equality for `Except`, used to evaluate concrete runs -/

instance {ε α : Type} [DecidableEq ε] [DecidableEq α] : DecidableEq (Except ε α)
  | Except.error e, Except.error f =>
    if h : e = f then Decidable.isTrue (by rw [h])
    else Decidable.isFalse (fun hc => h (by injection hc))
  | Except.error _, Except.ok _ => Decidable.isFalse (fun hc => nomatch hc)
  | Except.ok _, Except.error _ => Decidable.isFalse (fun hc => nomatch hc)
  | Except.ok a, Except.ok b =>
    if h : a = b then Decidable.isTrue (by rw [h])
    else Decidable.isFalse (fun hc => h (by injection hc))

/-! ### Concrete clients used by witnesses and counterexamples -/

/-- Two non-deleted edges `(A, u1, p1)` and `(A, u1, p2)`: the spec's
ambiguity sample. -/
def clientTwoEdges : Client where
  clusterName := "linux"
  assocRows := [⟨"A", "u1", "p1", "", 0⟩, ⟨"A", "u1", "p2", "", 0⟩]
  userRows := []
  acctRows := []

/-- Two non-deleted account-level rows (`user = ''`) of `A` with distinct
partitions `p1` and `p2`. -/
def clientTwoDefaults : Client where
  clusterName := "linux"
  assocRows := [⟨"A", "", "p1", "root", 0⟩, ⟨"A", "", "p2", "root", 0⟩]
  userRows := []
  acctRows := []

/-- Account `A` with two direct sub-users `u1` and `u2`. -/
def clientTwoUsers : Client where
  clusterName := "linux"
  assocRows := [⟨"A", "u1", "", "root", 0⟩, ⟨"A", "u2", "", "root", 0⟩]
  userRows := [⟨"u1", 1, 0⟩, ⟨"u2", 0, 0⟩]
  acctRows := [⟨"A", "descr", "org", 0⟩]

/-! ### Helper lemmas -/

theorem splitEqL_append (l r : List Char) (hl : ('=') ∉ l) :
    splitEqL (l ++ '=' :: r) = some (l, r) := by
  induction l with
  | nil => simp [splitEqL]
  | cons c cs ih =>
    have hc : c ≠ '=' := fun h => hl (by simp [h])
    have hcs : ('=') ∉ cs := fun h => hl (by simp [h])
    rw [List.cons_append]
    unfold splitEqL
    rw [if_neg hc, ih hcs]

theorem splitEq_partitionName (n : String) :
    splitEq (("PartitionName=") ++ n) = some (("PartitionName"), n) := by
  unfold splitEq
  have h0 : ("PartitionName=").data = ("PartitionName").data ++ ['='] := by decide
  have h1 : (("PartitionName=") ++ n).data = ("PartitionName").data ++ '=' :: n.data := by
    rw [String.data_append, h0, List.append_assoc, List.singleton_append]
  rw [h1, splitEqL_append _ _ (by decide)]

theorem lookupD_single (k v d : String) : lookupD [(k, v)] k d = v := by
  simp [lookupD]

theorem partitionsStep_first (n1 : String) :
    partitionsStep ([], []) [("PartitionName=") ++ n1] = ([], [(("PartitionName"), n1)]) := by
  unfold partitionsStep
  simp only [List.foldl, applyTok, splitEq_partitionName n1]
  rw [if_neg (by simp)]
  rfl

theorem partitionsStep_second (n1 n2 : String) (hn1 : n1 ≠ "") :
    partitionsStep ([], [(("PartitionName"), n1)]) [("PartitionName=") ++ n2] =
      ([[(("PartitionName"), n1)]], [(("PartitionName"), n2)]) := by
  unfold partitionsStep
  simp [List.foldl, applyTok, splitEq_partitionName n2, lookupD, hn1, upsert]

theorem lookupKV_upsert (m : PartitionMap) (k v key : String) :
    lookupKV (upsert m k v) key = if k = key then some v else lookupKV m key := by
  induction m with
  | nil => by_cases h : k = key <;> simp [upsert, lookupKV, h]
  | cons p rest ih =>
    obtain ⟨k0, v0⟩ := p
    by_cases h0 : k0 = k
    · subst h0
      by_cases h : k0 = key <;> simp [upsert, lookupKV, h]
    · by_cases h : k0 = key
      · subst h
        have hk : ¬(k = k0) := fun hc => h0 hc.symm
        simp [upsert, lookupKV, h0, hk]
      · simp [upsert, lookupKV, h0, h, ih]

theorem foldl_upsertTok_lookup (key : String) (toks : List String) (cur : PartitionMap) :
    lookupKV (toks.foldl upsertTok cur) key =
      (match lastAssign key toks with
        | some v => some v
        | none => lookupKV cur key) := by
  induction toks generalizing cur with
  | nil => rfl
  | cons t ts ih =>
    rw [List.foldl_cons, ih]
    rcases hts : lastAssign key ts with _ | v
    · rcases hsp : splitEq t with _ | ⟨k, v⟩
      · simp [lastAssign, hts, hsp, upsertTok]
      · simp only [lastAssign, hts, hsp, upsertTok, lookupKV_upsert]
        by_cases h : k = key <;> simp [h]
    · simp [lastAssign, hts]

theorem foldl_upsertTok_flatten (ls : List (List String)) (cur : PartitionMap) :
    ls.foldl (fun c toks => toks.foldl upsertTok c) cur = (ls.flatten).foldl upsertTok cur := by
  induction ls generalizing cur with
  | nil => rfl
  | cons l rest ih => rw [List.foldl_cons, List.flatten_cons, List.foldl_append, ih]

theorem foldl_lastD (l : List String) (init : String) :
    l.foldl (fun _ v => v) init = l.getLastD init := by
  induction l generalizing init with
  | nil => rfl
  | cons x xs ih => rw [List.foldl_cons, List.getLastD_cons, ih]

theorem countAdmin_append (l1 l2 : List Query) :
    countAdmin (l1 ++ l2) = countAdmin l1 + countAdmin l2 := by
  induction l1 with
  | nil => simp [countAdmin]
  | cons q rest ih =>
    cases q <;> simp [countAdmin, ih]
    omega

theorem getParentAccounts_ok (c : Client) (u : String) (hu : trimSpace u ≠ "")
    (hcl : trimSpace c.clusterName ≠ "") :
    GetParentAccountsByUser c u =
      ([Query.parentAccounts],
        Except.ok
          (distinct
            ((c.assocRows.filter (fun r => r.user == u && r.deleted == 0)).map
              (fun r => r.acct)))) := by
  unfold GetParentAccountsByUser
  rw [if_neg hu, if_neg hcl]

theorem getUserAdminLevels_single (c : Client) (u : String) (hu : u ≠ "") :
    GetUserAdminLevels c [u] =
      ([Query.adminLevels],
        Except.ok
          ((c.userRows.filter (fun r => r.deleted == 0 && [u].contains r.name)).foldl
            (fun m r => upsertInt m r.name r.adminLevel) [])) := by
  unfold GetUserAdminLevels
  simp [hu, distinct, distinctAux, List.filter]

theorem subUsersLoop_admin_count (c : Client) (hcl : trimSpace c.clusterName ≠ "") :
    ∀ su : List String, (∀ u ∈ su, trimSpace u ≠ "") →
      countAdmin (subUsersLoop c su).1 = su.length := by
  intro su
  induction su with
  | nil => intro _; rfl
  | cons name rest ih =>
    intro hsu
    have hn : trimSpace name ≠ "" := hsu name (List.mem_cons_self _ _)
    have hn2 : name ≠ "" := fun h => hn (by rw [h]; rfl)
    have hrest : ∀ u ∈ rest, trimSpace u ≠ "" := fun u hu => hsu u (List.mem_cons_of_mem _ hu)
    unfold subUsersLoop
    rw [getParentAccounts_ok c name hn hcl, getUserAdminLevels_single c name hn2]
    simp [countAdmin_append, countAdmin, ih hrest]

/-! ### Claim theorems -/

/-- C1: `FindAssociationOne` over the non-deleted rows matching the
required account and the active optional user/partition filters returns
the distinct not-found outcome on zero matches, the row itself on exactly
one match, and the distinct `ErrMultipleAssociations` outcome on two or
more matches — never an arbitrarily chosen row — and the three outcomes
are pairwise distinguishable. -/
theorem findAssociationOne_trichotomy (c : Client) (account : String)
    (userF partF : Option String)
    (hacct : trimSpace account ≠ "") (hcl : trimSpace c.clusterName ≠ "") :
    (findMatches c account userF partF = [] →
      (FindAssociationOne c account userF partF).2 = Except.error DbErr.recordNotFound) ∧
    (∀ r, findMatches c account userF partF = [r] →
      (FindAssociationOne c account userF partF).2 = Except.ok r) ∧
    (2 ≤ (findMatches c account userF partF).length →
      (FindAssociationOne c account userF partF).2 = Except.error DbErr.multipleAssociations) ∧
    ((Except.error DbErr.recordNotFound : Except DbErr AssocRow) ≠
      Except.error DbErr.multipleAssociations) ∧
    (∀ r : AssocRow, (Except.ok r : Except DbErr AssocRow) ≠ Except.error DbErr.recordNotFound) ∧
    (∀ r : AssocRow, (Except.ok r : Except DbErr AssocRow) ≠ Except.error DbErr.multipleAssociations) := by
  have hres : FindAssociationOne c account userF partF =
      (match findMatches c account userF partF with
        | [] => ([Query.findAssociation], Except.error DbErr.recordNotFound)
        | [r] => ([Query.findAssociation], Except.ok r)
        | _ => ([Query.findAssociation], Except.error DbErr.multipleAssociations)) := by
    unfold FindAssociationOne
    rw [if_neg hacct, if_neg hcl]
  refine ⟨?_, ?_, ?_, ?_, ?_, ?_⟩
  · intro h; rw [hres, h]
  · intro r h; rw [hres, h]
  · intro h2
    rw [hres]
    rcases hm : findMatches c account userF partF with _ | ⟨a, _ | ⟨b, t⟩⟩
    · rw [hm] at h2; simp at h2
    · rw [hm] at h2; simp at h2
    · rfl
  · simp
  · intro r; exact fun hc => nomatch hc
  · intro r; exact fun hc => nomatch hc

/-- C1 witness: on the spec's sample edges `(A,u1,p1)`, `(A,u1,p2)` a
lookup with `account = A`, `user = u1` and no partition filter matches two
rows and yields the ambiguous-match outcome. -/
theorem findAssociationOne_trichotomy_witness :
    (findMatches clientTwoEdges ("A") (some ("u1")) none).length = 2 ∧
    (FindAssociationOne clientTwoEdges ("A") (some ("u1")) none).2 =
      Except.error DbErr.multipleAssociations :=
  ⟨by decide,
    (findAssociationOne_trichotomy clientTwoEdges ("A") (some ("u1")) none
        (by decide) (by decide)).2.2.1 (by decide)⟩

/-- C2: the `GetNodes` guard only rejects lines with fewer than 7 fields
while `fields[7]` and `fields[8]` are still read, so a line with exactly
7 fields panics (modelled as `none`) and aborts the whole batch, instead
of being skipped: one well-formed line plus one 7-field line yields no
batch at all, though the well-formed line alone parses fine. -/
theorem getNodes_seven_field_line_aborts :
    GetNodes [("n1 p1 idle 1000 4 2 2 1 gpu:0"), ("n2 p2 idle 1000 4 2 2")] = none ∧
    GetNodes [("n1 p1 idle 1000 4 2 2 1 gpu:0")] =
      some [(("n1"), ⟨"n1", ["p1"], "idle", 1000, 4, 2, 2, 1, "gpu:0"⟩)] := by
  constructor <;> decide

/-- C3: a second well-formed line carrying an already-seen node name only
appends its partition field to that node's partition list (in order of
appearance); the single resulting record keeps every other field from the
first sighting, and the rest of the later line is discarded. -/
theorem getNodes_merge_second_sighting
    (a b c d e f g h i b2 c2 d2 e2 f2 g2 h2 i2 : String) :
    getNodesF [[a, b, c, d, e, f, g, h, i], [a, b2, c2, d2, e2, f2, g2, h2, i2]] =
      some [(a, ⟨a, [b, b2], c, atoi d, atoi e, atoi f, atoi g, atoi h, i⟩)] := by
  simp [getNodesF, getNodesFAux, getNodesStepF, lookupNode, appendPartition]

/-- C9: a numeric sub-field whose text fails integer syntax is parsed to
the zero value while the record is still produced and kept; the record
equation shows each numeric field is `atoi` of its token, and a syntax
failure makes `atoi` return 0. -/
theorem getNodes_numeric_fallback (a b c d e f g h i s : String)
    (hs : parseIntOpt s = none) :
    atoi s = 0 ∧
    getNodesF [[a, b, c, d, e, f, g, h, i]] =
      some [(a, ⟨a, [b], c, atoi d, atoi e, atoi f, atoi g, atoi h, i⟩)] := by
  constructor
  · unfold atoi; rw [hs]
  · simp [getNodesF, getNodesFAux, getNodesStepF, lookupNode]

/-- C9 witness: a line whose memory field is the non-numeric `12x` is kept
as a record with memory 0. -/
theorem getNodes_numeric_fallback_witness :
    parseIntOpt ("12x") = none ∧ atoi ("12x") = 0 ∧
    getNodesF [[("n1"), ("p1"), ("idle"), ("12x"), ("4"), ("2"), ("2"), ("1"), ("gpu:0")]] =
      some [(("n1"),
        ⟨("n1"), [("p1")], ("idle"), atoi ("12x"), atoi ("4"), atoi ("2"), atoi ("2"),
          atoi ("1"), ("gpu:0")⟩)] :=
  ⟨by decide,
    (getNodes_numeric_fallback ("n1") ("p1") ("idle") ("12x") ("4") ("2") ("2") ("1") ("gpu:0")
        ("12x") (by decide)).1,
    (getNodes_numeric_fallback ("n1") ("p1") ("idle") ("12x") ("4") ("2") ("2") ("1") ("gpu:0")
        ("12x") (by decide)).2⟩

/-- C4 counterexample: when the current block holds the `PartitionName`
key with the empty value (token `PartitionName=`), a later
`PartitionName` token does not flush — the claim's split into 2 blocks
does not happen and a single merged block results. -/
theorem parsePartitions_empty_name_merges :
    parsePartitions [("PartitionName= PartitionName=b")] = [[("PartitionName", "b")]] ∧
    (parsePartitions [("PartitionName= PartitionName=b")]).length ≠ 2 := by
  constructor <;> decide

/-- C4 amended: a `PartitionName` token met while the current block is
non-empty and holds a non-empty `PartitionName` value flushes the block
and starts a new one before the key is stored; consequently two
`PartitionName=<non-empty>` blocks concatenated without a blank line
still split into 2 blocks at the second token. -/
theorem parsePartitions_flush_nonempty_name (parts : List PartitionMap) (cur : PartitionMap)
    (tok v : String) (hsplit : splitEq tok = some (("PartitionName"), v))
    (hcur : 0 < cur.length) (hname : lookupD cur ("PartitionName") ("") ≠ "") :
    applyTok (parts, cur) tok = (parts ++ [cur], [(("PartitionName"), v)]) ∧
    ∀ n1 n2 : String, n1 ≠ "" →
      parsePartitionsFieldLines [[("PartitionName=") ++ n1], [("PartitionName=") ++ n2]] =
        [[(("PartitionName"), n1)], [(("PartitionName"), n2)]] := by
  constructor
  · unfold applyTok
    rw [hsplit]
    dsimp only
    rw [if_pos ⟨rfl, hcur, hname⟩]
    rfl
  · intro n1 n2 hn1
    unfold parsePartitionsFieldLines
    simp only [List.foldl, partitionsStep_first n1, partitionsStep_second n1 n2 hn1]
    rfl

/-- C4 witness: a `PartitionName=y` token flushes a block holding
`PartitionName=x`, and two concatenated one-token blocks split into 2. -/
theorem parsePartitions_flush_nonempty_name_witness :
    applyTok ([], [("PartitionName", "x")]) ("PartitionName=y") =
      ([[("PartitionName", "x")]], [("PartitionName", "y")]) ∧
    parsePartitionsFieldLines [[("PartitionName=") ++ ("a")], [("PartitionName=") ++ ("b")]] =
      [[("PartitionName", "a")], [("PartitionName", "b")]] :=
  ⟨(parsePartitions_flush_nonempty_name [] [("PartitionName", "x")] ("PartitionName=y") ("y")
      (by decide) (by decide) (by decide)).1,
   (parsePartitions_flush_nonempty_name [] [("PartitionName", "x")] ("PartitionName=y") ("y")
      (by decide) (by decide) (by decide)).2 ("a") ("b") (by decide)⟩

/-- C10: `parsePartition` returns exactly one flat map whose lookup at
any key is the value of the key's last `key=value` occurrence across all
tokens of all lines: the result equals a single fold over the flattened
token stream, so blank lines and repeated `PartitionName` keys cause no
splitting and multi-block input is silently merged with later values
overwriting earlier ones; tokens without `=` are ignored. -/
theorem parsePartition_last_occurrence (ls : List (List String)) (key : String) :
    parsePartitionFieldLines ls = (ls.flatten).foldl upsertTok [] ∧
    lookupKV (parsePartitionFieldLines ls) key = lastAssign key ls.flatten ∧
    (∀ cur tok, splitEq tok = none → upsertTok cur tok = cur) := by
  have hflat : parsePartitionFieldLines ls = (ls.flatten).foldl upsertTok [] := by
    unfold parsePartitionFieldLines
    rw [foldl_upsertTok_flatten]
  refine ⟨hflat, ?_, ?_⟩
  · rw [hflat, foldl_upsertTok_lookup]
    rcases lastAssign key ls.flatten with _ | v <;> simp [lookupKV]
  · intro cur tok h
    simp [upsertTok, h]

/-- C10 witness: two one-token blocks collapse into one merged map whose
`PartitionName` is the later value `b`, and an `=`-less token is
ignored. -/
theorem parsePartition_last_occurrence_witness :
    lookupKV (parsePartitionFieldLines [[("PartitionName=a")], [], [("PartitionName=b")]])
        ("PartitionName") =
      lastAssign ("PartitionName") ([[("PartitionName=a")], [], [("PartitionName=b")]].flatten) ∧
    lastAssign ("PartitionName") ([[("PartitionName=a")], [], [("PartitionName=b")]].flatten) =
      some ("b") ∧
    upsertTok [] ("noequalsign") = [] :=
  ⟨(parsePartition_last_occurrence [[("PartitionName=a")], [], [("PartitionName=b")]]
      ("PartitionName")).2.1,
   by decide,
   (parsePartition_last_occurrence [] ("")).2.2 [] ("noequalsign") (by decide)⟩

/-- C5 counterexample: with two non-deleted account-level rows for `A`
holding distinct partitions `p1` and `p2`, `GetPartitionOfAccount`
returns the single string `p2` — it scans each distinct value into one
string variable, so `p1` is dropped rather than a two-element distinct
set being returned. -/
theorem getPartitionOfAccount_drops_values :
    partitionValuesOfAccount clientTwoDefaults ("A") = [("p1"), ("p2")] ∧
    (GetPartitionOfAccount clientTwoDefaults ("A")).2 = Except.ok ("p2") ∧
    ("p2" : String) ≠ ("p1") := by
  refine ⟨by decide, by decide, by decide⟩

/-- C5 amended: `GetPartitionOfAccount` returns a single string — the
last of the distinct partition values of the account's non-deleted
account-level rows in scan order, or `""` when no row matches — never a
set; every other distinct value is discarded. -/
theorem getPartitionOfAccount_last_value (c : Client) (account : String) :
    GetPartitionOfAccount c account =
      ([Query.partitionOfAccount],
        Except.ok ((partitionValuesOfAccount c account).getLastD (""))) := by
  unfold GetPartitionOfAccount
  rw [foldl_lastD]

/-- C6 counterexample: `GetPartitionOfAccount` performs no validation at
all — called with the empty account name it still issues its data-layer
query and returns `ok ""` instead of a precondition error. -/
theorem getPartitionOfAccount_no_validation :
    GetPartitionOfAccount clientTwoDefaults ("") =
      ([Query.partitionOfAccount], Except.ok ("")) ∧
    ([Query.partitionOfAccount] : List Query) ≠ [] := by
  constructor <;> decide

/-- C6 amended: `GetPartitionsOfUser`, `GetSubAccountsAndUsers`,
`GetParentAccountsByUser` and `FindAssociationOne` reject an empty or
all-whitespace required name with a precondition error before issuing any
query (empty query log); `GetPartitionOfAccount` alone performs no such
validation. -/
theorem resolver_empty_name_rejected (c : Client) (a u s : String)
    (userF partF : Option String) (hs : trimSpace s = "") (ha : trimSpace a ≠ "") :
    GetPartitionsOfUser c s u = ([], Except.error (DbErr.required ("account"))) ∧
    GetPartitionsOfUser c a s = ([], Except.error (DbErr.required ("username"))) ∧
    GetSubAccountsAndUsers c s = ([], Except.error (DbErr.required ("account"))) ∧
    GetParentAccountsByUser c s = ([], Except.error (DbErr.required ("username"))) ∧
    FindAssociationOne c s userF partF = ([], Except.error (DbErr.required ("account"))) := by
  refine ⟨?_, ?_, ?_, ?_, ?_⟩
  · unfold GetPartitionsOfUser; rw [if_pos hs]
  · unfold GetPartitionsOfUser; rw [if_neg ha, if_pos hs]
  · unfold GetSubAccountsAndUsers; rw [if_pos hs]
  · unfold GetParentAccountsByUser; rw [if_pos hs]
  · unfold FindAssociationOne; rw [if_pos hs]

/-- C6 witness: the all-whitespace name `" "` is rejected by each guarded
resolver operation with an empty query log. -/
theorem resolver_empty_name_rejected_witness :
    GetPartitionsOfUser clientTwoDefaults (" ") ("u") =
      ([], Except.error (DbErr.required ("account"))) ∧
    GetPartitionsOfUser clientTwoDefaults ("A") (" ") =
      ([], Except.error (DbErr.required ("username"))) ∧
    GetSubAccountsAndUsers clientTwoDefaults (" ") =
      ([], Except.error (DbErr.required ("account"))) ∧
    GetParentAccountsByUser clientTwoDefaults (" ") =
      ([], Except.error (DbErr.required ("username"))) ∧
    FindAssociationOne clientTwoDefaults (" ") none none =
      ([], Except.error (DbErr.required ("account"))) :=
  resolver_empty_name_rejected clientTwoDefaults ("A") ("u") (" ") none none
    (by decide) (by decide)

/-- C7 counterexample: the single-job lookup `GetJob` does fail on a
malformed record — output that does not split into 9 fields is returned
as an error, contradicting the claim that no parser function errors on a
malformed record. -/
theorem getJob_malformed_errors :
    GetJob ("garbage") = Except.error ("invalid squeue output line, skip") := by decide

/-- C7 amended: the multi-record parse loop (`GetJobs`) skips a malformed
line — appending one changes nothing — and its parse phase is total,
failing only if the byte stream cannot be read; the single-record lookup
`GetJob`, by contrast, returns an error when its line is malformed, and a
line is malformed exactly when its `|`-split field count is not 9. -/
theorem getJobs_skip_getJob_error (ls : List String) (l out : String)
    (hl : parseJobFields (splitChar '|' l) = none)
    (hout : parseJobFields (splitChar '|' (trimSpace out)) = none) :
    GetJobs (ls ++ [l]) = GetJobs ls ∧
    GetJob out = Except.error ("invalid squeue output line, skip") ∧
    (∀ fs : List String, parseJobFields fs = none ↔ fs.length ≠ 9) := by
  refine ⟨?_, ?_, ?_⟩
  · unfold GetJobs
    rw [List.foldl_append, List.foldl_cons, List.foldl_nil, hl]
  · unfold GetJob
    rw [hout]
  · intro fs
    by_cases h : fs.length = 9 <;> simp [parseJobFields, h]

/-- C7 witness: one good line plus one malformed line yields the same
single record as the good line alone, and `GetJob` errors on the
malformed line. -/
theorem getJobs_skip_getJob_error_witness :
    GetJobs [("1|R|u|a|4|n|p|q|r"), ("bad line")] = GetJobs [("1|R|u|a|4|n|p|q|r")] ∧
    GetJobs [("1|R|u|a|4|n|p|q|r")] = [⟨"1", "R", "u", "a", "4", "n", "p", "q", "r"⟩] ∧
    GetJob ("bad line") = Except.error ("invalid squeue output line, skip") :=
  ⟨(getJobs_skip_getJob_error [("1|R|u|a|4|n|p|q|r")] ("bad line") ("bad line")
      (by decide) (by decide)).1,
   by decide,
   (getJobs_skip_getJob_error [("1|R|u|a|4|n|p|q|r")] ("bad line") ("bad line")
      (by decide) (by decide)).2.1⟩

/-- C8 counterexample: for account `A` with two sub-users, the assembled
tree issues two admin-level queries — one `GetUserAdminLevels([name])`
call per sub-user — not the single batched query the claim states. -/
theorem getChildNodes_admin_query_per_subuser :
    (GetSubAccountsAndUsers clientTwoUsers ("A")).2 = Except.ok ([], [("u1"), ("u2")]) ∧
    countAdmin (GetChildNodesOfAccount clientTwoUsers ("A")).1 = 2 ∧ (2 : Nat) ≠ 1 := by
  refine ⟨by decide, by decide, by decide⟩

/-- C8 amended: in `GetChildNodesOfAccount` the admin levels of the
sub-users are looked up one `GetUserAdminLevels` call per sub-user, each
with a singleton name list, so an account with k sub-users incurs exactly
k admin-level data-layer queries. -/
theorem getChildNodes_admin_queries (c : Client) (account : String)
    (acct : AccountRow) (sa su : List String)
    (ha : trimSpace account ≠ "") (hcl : trimSpace c.clusterName ≠ "")
    (hacct : (GetAcctByName c account).2 = Except.ok acct)
    (hsub : (GetSubAccountsAndUsers c account).2 = Except.ok (sa, su))
    (hsu : ∀ u ∈ su, trimSpace u ≠ "") :
    countAdmin (GetChildNodesOfAccount c account).1 = su.length := by
  have hlog1 : (GetAcctByName c account).1 = [Query.acctByName] := by
    unfold GetAcctByName
    rw [if_neg ha]
    cases (c.acctRows.filter (fun r => r.deleted == 0 && r.name == account)).head? <;> rfl
  have hlog2 : (GetSubAccountsAndUsers c account).1 = [Query.subAccounts, Query.subUsers] := by
    unfold GetSubAccountsAndUsers
    rw [if_neg ha, if_neg hcl]
  unfold GetChildNodesOfAccount
  rw [if_neg ha]
  simp only [hacct, hsub]
  rcases h3 : (subUsersLoop c su).2 with e | ns <;>
    simp [h3, hlog1, hlog2, countAdmin_append, countAdmin,
      subUsersLoop_admin_count c hcl su hsu]

/-- C8 witness: the k = 2 instance; the admin-level query count equals
the number of sub-users, 2. -/
theorem getChildNodes_admin_queries_witness :
    (GetSubAccountsAndUsers clientTwoUsers ("A")).2 = Except.ok ([], [("u1"), ("u2")]) ∧
    countAdmin (GetChildNodesOfAccount clientTwoUsers ("A")).1 =
      ([("u1"), ("u2")] : List String).length :=
  ⟨by decide,
    getChildNodes_admin_queries clientTwoUsers ("A") ⟨"A", "descr", "org", 0⟩ [] [("u1"), ("u2")]
      (by decide) (by decide) (by decide) (by decide) (by decide)⟩

end Solid
